import Mathlib

/-!
# SDL_audiolib: device session (`aulib.cpp`) and Musepack decoder
(`AudioDecoderMusepack.cpp`)

A shallow embedding of `Aulib::init`, `Aulib::quit` and of the methods of
`Aulib::AudioDecoderMusepack`, followed by the properties proved about them.

Conventions.
* C++ state is passed explicitly: a function that mutates process-wide or
  object state takes the state and returns the new one.
* The host audio layer (SDL) and the Musepack codec library (libmpcdec) are
  external: their answers are parameters (`Host`, `MpcCodec`).
* Machine integers are `Nat`/`Int`; a narrowing conversion or a wrapping
  operation of the source is written with an explicit modulus.  The data
  model is the usual 64-bit one: `unsigned` and `mpc_uint32_t` have 32 bits,
  `size_t` has 64 bits, `Uint8`/`Uint16` have 8/16 bits.
* Where the source has undefined behaviour (a division by zero, a null
  demuxer, a `memcpy` that reads outside the decoder's frame buffer) the
  embedding stops with an outcome of its own, `DecodeOutcome.undefined`.
-/

namespace Aulib

/-! ## Host audio layer -/

/-- The type `SDL_AudioFormat` (a `Uint16`). -/
abbrev SDL_AudioFormat := Nat

/-- SDL constant `AUDIO_U8` (SDL_audio.h). -/
def AUDIO_U8 : SDL_AudioFormat := 0x0008
/-- SDL constant `AUDIO_S8` (SDL_audio.h). -/
def AUDIO_S8 : SDL_AudioFormat := 0x8008
/-- SDL constant `AUDIO_U16LSB` (SDL_audio.h). -/
def AUDIO_U16LSB : SDL_AudioFormat := 0x0010
/-- SDL constant `AUDIO_S16LSB` (SDL_audio.h). -/
def AUDIO_S16LSB : SDL_AudioFormat := 0x8010
/-- SDL constant `AUDIO_U16MSB` (SDL_audio.h). -/
def AUDIO_U16MSB : SDL_AudioFormat := 0x1010
/-- SDL constant `AUDIO_S16MSB` (SDL_audio.h). -/
def AUDIO_S16MSB : SDL_AudioFormat := 0x9010
/-- SDL constant `AUDIO_S32LSB` (SDL_audio.h). -/
def AUDIO_S32LSB : SDL_AudioFormat := 0x8020
/-- SDL constant `AUDIO_S32MSB` (SDL_audio.h); not handled by `init`. -/
def AUDIO_S32MSB : SDL_AudioFormat := 0x9020
/-- SDL constant `AUDIO_F32LSB` (SDL_audio.h). -/
def AUDIO_F32LSB : SDL_AudioFormat := 0x8120
/-- SDL constant `AUDIO_F32MSB` (SDL_audio.h); not handled by `init`. -/
def AUDIO_F32MSB : SDL_AudioFormat := 0x9120

/-- The fields of `SDL_AudioSpec`.  `callback` records whether the spec
carries `::sdlCallback`. -/
structure SDL_AudioSpec where
  freq : Int
  format : SDL_AudioFormat
  channels : Nat
  silence : Nat
  samples : Nat
  size : Nat
  callback : Bool
deriving DecidableEq, Repr

/-- The sample converters of `sampleconv.h`, as the values the function
pointer `AudioStream_priv::fSampleConverter` can take in `init`. -/
inductive SampleConverter where
  | floatToS8
  | floatToU8
  | floatToS16LSB
  | floatToU16LSB
  | floatToS16MSB
  | floatToU16MSB
  | floatToS32LSB
  | floatToFloat
deriving DecidableEq, Repr

/-- The answers of the host layer to one `init` call: the result of
`SDL_InitSubSystem(SDL_INIT_AUDIO)`, and `SDL_OpenAudio(desired, obtained)`,
which returns its status and what it leaves in `*obtained`. -/
structure Host where
  SDL_InitSubSystem : Int
  SDL_OpenAudio : SDL_AudioSpec → SDL_AudioSpec → Int × SDL_AudioSpec

/-- The calls `init` and `quit` make that leave the process-wide state of
the library: host calls, `std::atexit` and the two `delete[]`. -/
inductive HostCall where
  | initSubSystem
  | openAudio (desired : SDL_AudioSpec)
  | pauseAudio (pauseOn : Bool)
  | quitSubSystem
  | atexitQuit
  | deleteFinalMixBuf
  | deleteStrmBuf
deriving DecidableEq, Repr

/-! ## Streams -/

/-- What `quit` uses of the class `AudioStream`, whose source
(Aulib/AudioStream.h, audiostream_p.h) is not present: the type of stream
objects and the methods `isPlaying()` and `stop()`, as functions of the
stream's state. -/
structure StreamOps (Stream : Type) where
  isPlaying : Stream → Bool
  stop : Stream → Stream

/-- A pointer to an `AudioStream`. -/
abbrev StreamPtr := Nat

/-! ## Process-wide state of `aulib.cpp` -/

/-- The process-wide state read and written by `init` and `quit`:
`gInitialized`, the statics `fAudioSpec`, `fSampleConverter` and
`fStreamList` of `AudioStream_priv`, the stream objects the list points to,
and the trace of outside calls made so far. -/
structure Session (Stream : Type) where
  gInitialized : Bool
  fAudioSpec : SDL_AudioSpec
  fSampleConverter : Option SampleConverter
  fStreamList : List StreamPtr
  streams : StreamPtr → Stream
  calls : List HostCall

/-- Body of the loop of `quit`: `if (stream->isPlaying()) stream->stop();`. -/
def quitVisit {Stream : Type} (ops : StreamOps Stream) (streams : StreamPtr → Stream)
    (stream : StreamPtr) : StreamPtr → Stream :=
  if ops.isPlaying (streams stream) then
    Function.update streams stream (ops.stop (streams stream))
  else
    streams

/-- The function `Aulib::quit`. -/
def quit {Stream : Type} (ops : StreamOps Stream) (s : Session Stream) : Session Stream :=
  if !s.gInitialized then
    s
  else
    { s with
      streams := s.fStreamList.foldl (quitVisit ops) s.streams
      calls := s.calls ++
        [HostCall.quitSubSystem, HostCall.deleteFinalMixBuf, HostCall.deleteStrmBuf]
      fSampleConverter := none
      gInitialized := false }

/-- The `requestedSpec` that `init` builds: value-initialised, then `freq`,
`format`, `channels` (after the clamp; `Uint8`), `samples` (`Uint16`) and
`callback` are assigned. -/
def requestedSpec (freq : Int) (format : SDL_AudioFormat) (channels : Int)
    (bufferSize : Int) : SDL_AudioSpec :=
  let channels := min (max 1 channels) 2
  { freq := freq
    format := format
    channels := (channels % 256).toNat
    silence := 0
    samples := (bufferSize % 65536).toNat
    size := 0
    callback := true }

/-- The `switch` of `init` over the negotiated format; `none` is the
`default` label. -/
def selectConverter (format : SDL_AudioFormat) : Option SampleConverter :=
  if format = AUDIO_S8 then some SampleConverter.floatToS8
  else if format = AUDIO_U8 then some SampleConverter.floatToU8
  else if format = AUDIO_S16LSB then some SampleConverter.floatToS16LSB
  else if format = AUDIO_U16LSB then some SampleConverter.floatToU16LSB
  else if format = AUDIO_S16MSB then some SampleConverter.floatToS16MSB
  else if format = AUDIO_U16MSB then some SampleConverter.floatToU16MSB
  else if format = AUDIO_S32LSB then some SampleConverter.floatToS32LSB
  else if format = AUDIO_F32LSB then some SampleConverter.floatToFloat
  else none

/-- The function `Aulib::init`; returns the result and the new state. -/
def init {Stream : Type} (ops : StreamOps Stream) (host : Host) (s : Session Stream)
    (freq : Int) (format : SDL_AudioFormat) (channels : Int) (bufferSize : Int) :
    Int × Session Stream :=
  let s := { s with calls := s.calls ++ [HostCall.initSubSystem] }
  if host.SDL_InitSubSystem ≠ 0 then
    (-1, s)
  else
    let req := requestedSpec freq format channels bufferSize
    let s := { s with fAudioSpec := req }
    let opened := host.SDL_OpenAudio req s.fAudioSpec
    let s := { s with fAudioSpec := opened.2, calls := s.calls ++ [HostCall.openAudio req] }
    if opened.1 ≠ 0 then
      (-1, quit ops s)
    else
      match selectConverter s.fAudioSpec.format with
      | some conv =>
        (0, { s with
              fSampleConverter := some conv
              calls := s.calls ++ [HostCall.pauseAudio false, HostCall.atexitQuit]
              gInitialized := true })
      | none => (-1, quit ops s)

/-- The function `Aulib::spec`. -/
def spec {Stream : Type} (s : Session Stream) : SDL_AudioSpec :=
  s.fAudioSpec

/-! ## Musepack codec library (libmpcdec) -/

/-- One PCM sample.  The decoder only copies samples (`std::memcpy`), so a
sample is an uninterpreted value; integers stand for the `float` bit
patterns. -/
abbrev Sample := Int

/-- The time argument of `seekToTime`; only handed on to the codec. -/
abbrev Seconds := Rat

/-- An abstract seekable byte source (`SDL_RWops*`): the bytes it delivers. -/
abbrev SDL_RWops := List Nat

/-- The type `mpc_status`. -/
abbrev mpc_status := Int

/-- The libmpcdec constant `MPC_STATUS_OK`. -/
def MPC_STATUS_OK : mpc_status := 0

/-- The libmpcdec constant `MPC_DECODER_BUFFER_LENGTH`
(`4 * MPC_FRAME_LENGTH`, `MPC_FRAME_LENGTH = 36 * 32`): the number of floats
of `curFrameBuffer`. -/
def MPC_DECODER_BUFFER_LENGTH : Nat := 4 * (36 * 32)

/-- Conversion to `unsigned` / `mpc_uint32_t`. -/
def toUnsigned (n : Nat) : Nat := n % 2 ^ 32

/-- Conversion to `size_t`. -/
def toSizeT (n : Nat) : Nat := n % 2 ^ 64

/-- Subtraction of 32-bit unsigned values, `a -= b`. -/
def subUnsigned (a b : Nat) : Nat := (a + 2 ^ 32 - b % 2 ^ 32) % 2 ^ 32

/-- The fields of `mpc_frame_info` the decoder uses.  The pointer `buffer`
always points to `curFrameBuffer`; the field `buffer` here is the content of
that memory, the float at each offset.  Only the offsets below
`MPC_DECODER_BUFFER_LENGTH` exist.  The content is whatever was stored last
at an offset, so floats of an earlier frame stay where a later frame does not
overwrite them. -/
structure mpc_frame_info where
  samples : Nat
  bits : Int
  buffer : Nat → Sample

/-- The fields of `mpc_streaminfo` the decoder uses. -/
structure mpc_streaminfo where
  sample_freq : Nat
  channels : Nat
deriving DecidableEq, Repr

/-- The codec library, over a type `σ` of demuxer states.
* `mpc_demux_init` gets the reader bound to the byte source and answers a
  demuxer or null.
* `mpc_demux_decode` gets the demuxer and the frame it writes to (fields and
  buffer content as they are before the call), and answers status, frame and
  demuxer afterwards.
* `mpc_demux_seek_second` answers status and demuxer afterwards. -/
structure MpcCodec (σ : Type) where
  mpc_demux_init : SDL_RWops → Option σ
  mpc_demux_get_info : σ → mpc_streaminfo
  mpc_demux_decode : σ → mpc_frame_info → mpc_status × mpc_frame_info × σ
  mpc_demux_seek_second : σ → Seconds → mpc_status × σ

/-! ## `AudioDecoderMusepack` -/

/-- The struct `AudioDecoderMusepack_priv` (without the unused `duration`
and the constant callbacks of `reader`). -/
structure AudioDecoderMusepack_priv (σ : Type) where
  readerData : Option SDL_RWops
  demuxer : Option σ
  curFrame : mpc_frame_info
  strmInfo : mpc_streaminfo
  frameBufPos : Nat
  eof : Bool

/-- The class `AudioDecoderMusepack`: its private part `d` and the
open flag of its base class.

Modelled from the spec: `fIsOpen` is the "open/closed flag" of the base class
`AudioDecoder`, read by `isOpen()` and written by `setIsOpen()`, whose source
is not present. -/
structure AudioDecoderMusepack (σ : Type) where
  fIsOpen : Bool
  d : AudioDecoderMusepack_priv σ

/-- The method `AudioDecoderMusepack::open`. -/
def AudioDecoderMusepack.open' {σ : Type} (codec : MpcCodec σ)
    (self : AudioDecoderMusepack σ) (rwops : SDL_RWops) : Bool × AudioDecoderMusepack σ :=
  if self.fIsOpen then
    (true, self)
  else
    match codec.mpc_demux_init rwops with
    | none =>
      (false, { self with d := { self.d with readerData := none, demuxer := none } })
    | some dm =>
      (true, { fIsOpen := true
               d := { self.d with
                      readerData := some rwops
                      demuxer := some dm
                      strmInfo := codec.mpc_demux_get_info dm } })

/-- The method `AudioDecoderMusepack::getChannels`. -/
def AudioDecoderMusepack.getChannels {σ : Type} (self : AudioDecoderMusepack σ) : Nat :=
  if self.d.demuxer.isSome then self.d.strmInfo.channels else 0

/-- The method `AudioDecoderMusepack::getRate`. -/
def AudioDecoderMusepack.getRate {σ : Type} (self : AudioDecoderMusepack σ) : Nat :=
  if self.d.demuxer.isSome then self.d.strmInfo.sample_freq else 0

/-- The `n` floats at offsets `pos, ..., pos + n - 1` of a frame buffer. -/
def floatsAt (buffer : Nat → Sample) (pos n : Nat) : List Sample :=
  (List.range n).map fun i => buffer (pos + i)

/-- What `std::memcpy(dst, buffer + pos, n * sizeof(float))` reads from the
frame buffer.  The source range must lie inside the
`MPC_DECODER_BUFFER_LENGTH` floats of `curFrameBuffer`; the answer is `none`
when it does not, which is undefined behaviour in the source (there is no
bounds check before the `memcpy`). -/
def readFloats (buffer : Nat → Sample) (pos n : Nat) : Option (List Sample) :=
  if pos + n ≤ MPC_DECODER_BUFFER_LENGTH then some (floatsAt buffer pos n) else none

/-- How a `doDecoding` call ends.
* `returned ret callAgain written self`: it returns `ret`, having stored the
  floats `written` at `buf[0], buf[1], ...` in this order.
* `undefined written`: it reaches undefined behaviour (a `memcpy` that reads
  outside the frame buffer, a division by a channel count of 0, or decoding
  through a null demuxer) after storing `written`.
* `running written`: the loop has not ended within the given number of
  iterations, and has stored `written` so far. -/
inductive DecodeOutcome (σ : Type) where
  | returned (ret : Nat) (callAgain : Bool) (written : List Sample)
      (self : AudioDecoderMusepack σ)
  | undefined (written : List Sample)
  | running (written : List Sample)

/-- The floats a call has stored into `buf`. -/
def DecodeOutcome.written {σ : Type} : DecodeOutcome σ → List Sample
  | .returned _ _ w _ => w
  | .undefined w => w
  | .running w => w

/-- The `while (totalSamples < wantedSamples)` loop of `doDecoding`, run for
at most `fuel` iterations.  `len` is the remaining room, `out` what has been
stored into `buf` so far. -/
def decodeLoop {σ : Type} (codec : MpcCodec σ) :
    Nat → AudioDecoderMusepack σ → Nat → Nat → Nat → List Sample → DecodeOutcome σ
  | 0, self, _, totalSamples, wantedSamples, out =>
    if totalSamples < wantedSamples then .running out
    else .returned totalSamples false out self
  | fuel + 1, self, len, totalSamples, wantedSamples, out =>
    if totalSamples < wantedSamples then
      match self.d.demuxer with
      | none => .undefined out
      | some dm =>
        let r := codec.mpc_demux_decode dm self.d.curFrame
        if r.1 ≠ MPC_STATUS_OK then
          .returned 0 false out
            { self with d := { self.d with demuxer := some r.2.2, curFrame := r.2.1 } }
        else
          let channels := self.d.strmInfo.channels
          let copyLen := toUnsigned (min (toSizeT (r.2.1.samples * channels)) len)
          match readFloats r.2.1.buffer 0 copyLen with
          | none => .undefined out
          | some floats =>
            let out := out ++ floats
            if channels = 0 then .undefined out
            else
              let frame :=
                { r.2.1 with samples := subUnsigned r.2.1.samples (copyLen / channels) }
              let totalSamples := toUnsigned (totalSamples + copyLen)
              let self := { self with
                            d := { self.d with
                                   demuxer := some r.2.2
                                   curFrame := frame
                                   frameBufPos := copyLen } }
              if frame.bits = -1 then
                .returned totalSamples false out { self with d := { self.d with eof := true } }
              else
                decodeLoop codec fuel self (len - copyLen) totalSamples wantedSamples out
    else .returned totalSamples false out self

/-- The method `AudioDecoderMusepack::doDecoding(buf, len, callAgain)`, its
loop run for at most `fuel` iterations. -/
def AudioDecoderMusepack.doDecoding {σ : Type} (codec : MpcCodec σ) (fuel : Nat)
    (self : AudioDecoderMusepack σ) (len : Nat) : DecodeOutcome σ :=
  let wantedSamples := toUnsigned len
  if self.d.eof then
    .returned 0 false [] self
  else if 0 < self.d.curFrame.samples then
    let channels := self.d.strmInfo.channels
    let copyLen := toUnsigned (min (toSizeT (self.d.curFrame.samples * channels)) len)
    match readFloats self.d.curFrame.buffer self.d.frameBufPos copyLen with
    | none => .undefined []
    | some out =>
      if channels = 0 then .undefined out
      else
        let frame := { self.d.curFrame with
                       samples := subUnsigned self.d.curFrame.samples (copyLen / channels) }
        if frame.samples ≠ 0 then
          .returned copyLen false out
            { self with
              d := { self.d with
                     curFrame := frame
                     frameBufPos := toUnsigned (self.d.frameBufPos + copyLen) } }
        else
          decodeLoop codec fuel
            { self with d := { self.d with curFrame := frame, frameBufPos := 0 } }
            (len - copyLen) (toUnsigned copyLen) wantedSamples out
  else
    decodeLoop codec fuel self len 0 wantedSamples []

/-- The method `AudioDecoderMusepack::seekToTime`. -/
def AudioDecoderMusepack.seekToTime {σ : Type} (codec : MpcCodec σ)
    (self : AudioDecoderMusepack σ) (seconds : Seconds) : Bool × AudioDecoderMusepack σ :=
  match self.d.demuxer with
  | none => (false, self)
  | some dm =>
    let r := codec.mpc_demux_seek_second dm seconds
    let self := { self with d := { self.d with demuxer := some r.2 } }
    if r.1 = MPC_STATUS_OK then
      (true, { self with d := { self.d with eof := false } })
    else
      (false, self)

/-- The method `AudioDecoderMusepack::rewind`. -/
def AudioDecoderMusepack.rewind {σ : Type} (codec : MpcCodec σ)
    (self : AudioDecoderMusepack σ) : Bool × AudioDecoderMusepack σ :=
  self.seekToTime codec 0

/-! ## Sequences of calls on one decoder -/

/-- A call made on a decoder. -/
inductive DecoderCall where
  | doDecoding (len : Nat)
  | seekToTime (seconds : Seconds)

/-- What a call did: for `doDecoding` the decoder before the call and the
way the call ended, for `seekToTime` the value it returned. -/
inductive CallResult (σ : Type) where
  | decoded (before : AudioDecoderMusepack σ) (outcome : DecodeOutcome σ)
  | sought (ok : Bool)

/-- The results of a sequence of calls made one after the other on the same
decoder.  The sequence stops at a `doDecoding` call that does not return. -/
def runCalls {σ : Type} (codec : MpcCodec σ) (fuel : Nat) :
    AudioDecoderMusepack σ → List DecoderCall → List (CallResult σ)
  | _, [] => []
  | self, .seekToTime seconds :: rest =>
    .sought (self.seekToTime codec seconds).1 ::
      runCalls codec fuel (self.seekToTime codec seconds).2 rest
  | self, .doDecoding len :: rest =>
    match self.doDecoding codec fuel len with
    | .returned ret callAgain written self' =>
      .decoded self (.returned ret callAgain written self') :: runCalls codec fuel self' rest
    | .undefined written => [.decoded self (.undefined written)]
    | .running written => [.decoded self (.running written)]

/-- The outcomes of successive `doDecoding` calls with the given `len`
values.  The sequence stops at a call that does not return. -/
def decodeCalls {σ : Type} (codec : MpcCodec σ) (fuel : Nat) :
    AudioDecoderMusepack σ → List Nat → List (DecodeOutcome σ)
  | _, [] => []
  | self, len :: lens =>
    match self.doDecoding codec fuel len with
    | .returned ret callAgain written self' =>
      .returned ret callAgain written self' :: decodeCalls codec fuel self' lens
    | .undefined written => [.undefined written]
    | .running written => [.running written]

/-! ## Descriptions of codec behaviour used in the statements -/

/-- From demuxer state `dm` the codec reports an error or the end-of-stream
frame (`bits == -1`) within its next `n` decode calls, and every frame it
decodes up to there fits the frame buffer (`samples * channels` floats are at
most `MPC_DECODER_BUFFER_LENGTH`). -/
def StreamEndsWithin {σ : Type} (codec : MpcCodec σ) (channels : Nat) : Nat → σ → Prop
  | 0, _ => False
  | n + 1, dm =>
    ∀ frame, (codec.mpc_demux_decode dm frame).1 ≠ MPC_STATUS_OK ∨
      ((codec.mpc_demux_decode dm frame).2.1.samples * channels ≤ MPC_DECODER_BUFFER_LENGTH ∧
        ((codec.mpc_demux_decode dm frame).2.1.bits = -1 ∨
          StreamEndsWithin codec channels n (codec.mpc_demux_decode dm frame).2.2))

/-- A frame on the tape of `tapeCodec`: the fields the codec sets and the
floats it stores at the start of the frame buffer. -/
structure TapeFrame where
  samples : Nat
  bits : Int
  floats : List Sample
deriving DecidableEq, Repr

/-- Demuxer state of `tapeCodec`: the frames of the stream and the index of
the frame decoded next. -/
structure TapeDemuxer where
  tape : List TapeFrame
  next : Nat
deriving DecidableEq, Repr

/-- Storing `floats` at the start of a frame buffer; the rest of the buffer
keeps its content. -/
def writeFloats (floats : List Sample) (buffer : Nat → Sample) : Nat → Sample :=
  fun i => if i < floats.length then floats.getD i 0 else buffer i

/-- A codec over streams given as a list of frames.  A source is accepted
when it starts with the bytes `M P +`; every further byte is then a frame of
one sample.  Decoding works in place: it hands out the frames in order, each
stored at the start of the frame buffer it is given, and the end-of-stream
frame after the last one.  Seeking succeeds for a whole number of seconds
that is a frame index of the stream. -/
def tapeCodec (channels : Nat) : MpcCodec TapeDemuxer where
  mpc_demux_init := fun rwops =>
    match rwops with
    | 77 :: 80 :: 43 :: body =>
      some { tape := body.map fun b => { samples := 1, bits := 8, floats := [(b : Int)] }
             next := 0 }
    | _ => none
  mpc_demux_get_info := fun _ => { sample_freq := 44100, channels := channels }
  mpc_demux_decode := fun dm frame =>
    match dm.tape.get? dm.next with
    | some f =>
      (MPC_STATUS_OK,
        { samples := f.samples, bits := f.bits, buffer := writeFloats f.floats frame.buffer },
        { dm with next := dm.next + 1 })
    | none => (MPC_STATUS_OK, { frame with samples := 0, bits := -1 }, dm)
  mpc_demux_seek_second := fun dm seconds =>
    if seconds.den = 1 ∧ 0 ≤ seconds.num ∧ seconds.num.toNat ≤ dm.tape.length then
      (MPC_STATUS_OK, { dm with next := seconds.num.toNat })
    else
      (-1, dm)

/-- The codec `tapeCodec` on a stream that breaks off: after the last frame
decoding reports an error instead of the end-of-stream frame. -/
def truncatedTapeCodec (channels : Nat) : MpcCodec TapeDemuxer :=
  { tapeCodec channels with
    mpc_demux_decode := fun dm frame =>
      match dm.tape.get? dm.next with
      | some f =>
        (MPC_STATUS_OK,
          { samples := f.samples, bits := f.bits, buffer := writeFloats f.floats frame.buffer },
          { dm with next := dm.next + 1 })
      | none => (-1, frame, dm) }

/-- Modelled from the spec: the state of an `AudioStream` (the class is not
among the sources).  A stream has a playback state and owns a decoder; of
the decoder only its position matters here, `0` being the beginning of the
stream. -/
structure AudioStream where
  fIsPlaying : Bool
  decoderPos : Nat
deriving DecidableEq, Repr

/-- Modelled from the spec: `AudioStream::isPlaying`. -/
def AudioStream.isPlaying (stream : AudioStream) : Bool :=
  stream.fIsPlaying

/-- Modelled from the spec: `AudioStream::stop`, "any state → Stopped;
decoder is rewound as part of stop". -/
def AudioStream.stop (_stream : AudioStream) : AudioStream :=
  { fIsPlaying := false, decoderPos := 0 }

/-- The stream operations as the spec describes them. -/
def audioStreamOps : StreamOps AudioStream :=
  { isPlaying := AudioStream.isPlaying, stop := AudioStream.stop }

/-- A session that has been initialised for signed 16-bit output, with three
registered streams, the first and the last of them playing. -/
def exampleSession : Session AudioStream :=
  { gInitialized := true
    fAudioSpec := { freq := 44100, format := AUDIO_S16LSB, channels := 2, silence := 0,
                    samples := 4096, size := 16384, callback := true }
    fSampleConverter := some SampleConverter.floatToS16LSB
    fStreamList := [10, 20, 30]
    streams := fun p =>
      if p = 10 then { fIsPlaying := true, decoderPos := 7 }
      else if p = 20 then { fIsPlaying := false, decoderPos := 5 }
      else if p = 30 then { fIsPlaying := true, decoderPos := 9 }
      else { fIsPlaying := true, decoderPos := 3 }
    calls := [] }

/-- The state of the library before any `init`. -/
def freshSession : Session AudioStream :=
  { gInitialized := false
    fAudioSpec := { freq := 0, format := 0, channels := 0, silence := 0, samples := 0,
                    size := 0, callback := false }
    fSampleConverter := none
    fStreamList := []
    streams := fun _ => { fIsPlaying := false, decoderPos := 0 }
    calls := [] }

/-- A host that opens a device and negotiates `format` whatever was asked
for, leaving the other fields as requested. -/
def hostNegotiating (format : SDL_AudioFormat) : Host :=
  { SDL_InitSubSystem := 0
    SDL_OpenAudio := fun desired _ => (0, { desired with format := format }) }

/-- An open stereo decoder at the start of a stream of two frames, the first
with one stereo sample (`1, 2`), the second with two (`5, 6` and `7, 8`). -/
def twoFrameDecoder : AudioDecoderMusepack TapeDemuxer :=
  { fIsOpen := true
    d := { readerData := some [77, 80, 43]
           demuxer := some
             { tape := [{ samples := 1, bits := 8, floats := [1, 2] },
                        { samples := 2, bits := 8, floats := [5, 6, 7, 8] }]
               next := 0 }
           curFrame := { samples := 0, bits := 0, buffer := fun _ => 0 }
           strmInfo := { sample_freq := 44100, channels := 2 }
           frameBufPos := 0
           eof := false } }

/-- The decoder `twoFrameDecoder` after `doDecoding(buf, 4)`, in the middle of the
second frame: both frames have been decoded, `doDecoding` has handed out the
first frame and the first stereo sample of the second, and the second stereo
sample of the second frame (`7, 8`) is still buffered. -/
def midFrameDecoder : AudioDecoderMusepack TapeDemuxer :=
  { fIsOpen := true
    d := { readerData := some [77, 80, 43]
           demuxer := some
             { tape := [{ samples := 1, bits := 8, floats := [1, 2] },
                        { samples := 2, bits := 8, floats := [5, 6, 7, 8] }]
               next := 2 }
           curFrame := { samples := 1, bits := 8,
                         buffer := writeFloats [5, 6, 7, 8] (writeFloats [1, 2] fun _ => 0) }
           strmInfo := { sample_freq := 44100, channels := 2 }
           frameBufPos := 2
           eof := false } }

/-- A stereo decoder whose read position is at the end of the frame buffer
while its frame still counts one stereo sample, as a codec leaves it that
reports more samples than the buffer holds. -/
def overrunDecoder : AudioDecoderMusepack TapeDemuxer :=
  { fIsOpen := true
    d := { readerData := some [77, 80, 43]
           demuxer := some { tape := [], next := 0 }
           curFrame := { samples := 1, bits := 8, buffer := fun _ => 0 }
           strmInfo := { sample_freq := 44100, channels := 2 }
           frameBufPos := MPC_DECODER_BUFFER_LENGTH
           eof := false } }

/-- An open mono decoder at the start of a stream whose only frame reports
4609 samples, one more than the frame buffer holds. -/
def oversizeDecoder : AudioDecoderMusepack TapeDemuxer :=
  { fIsOpen := true
    d := { readerData := some [77, 80, 43]
           demuxer := some { tape := [{ samples := 4609, bits := 8, floats := [] }], next := 0 }
           curFrame := { samples := 0, bits := 0, buffer := fun _ => 0 }
           strmInfo := { sample_freq := 44100, channels := 1 }
           frameBufPos := 0
           eof := false } }

/-- An open mono decoder that has reached the end of its one-frame stream. -/
def endedDecoder : AudioDecoderMusepack TapeDemuxer :=
  { fIsOpen := true
    d := { readerData := some [77, 80, 43, 9]
           demuxer := some { tape := [{ samples := 1, bits := 8, floats := [9] }], next := 1 }
           curFrame := { samples := 0, bits := -1, buffer := writeFloats [9] fun _ => 0 }
           strmInfo := { sample_freq := 44100, channels := 1 }
           frameBufPos := 0
           eof := true } }

/-! ## Properties of `init` and `quit` -/

theorem selectConverter_eq_some_iff (format : SDL_AudioFormat) :
    (selectConverter format).isSome = true ↔
      format ∈ [AUDIO_S8, AUDIO_U8, AUDIO_S16LSB, AUDIO_U16LSB, AUDIO_S16MSB, AUDIO_U16MSB,
        AUDIO_S32LSB, AUDIO_F32LSB] := by
  unfold selectConverter
  split_ifs <;> simp_all

theorem quit_of_not_initialized {Stream : Type} (ops : StreamOps Stream) (s : Session Stream)
    (h : s.gInitialized = false) : quit ops s = s := by
  simp [quit, h]

theorem quit_gInitialized {Stream : Type} (ops : StreamOps Stream) (s : Session Stream) :
    (quit ops s).gInitialized = false := by
  unfold quit
  cases h : s.gInitialized <;> simp [h]

theorem mem_calls_quit {Stream : Type} (ops : StreamOps Stream) (s : Session Stream)
    (c : HostCall) (h : c ∈ s.calls) : c ∈ (quit ops s).calls := by
  unfold quit
  split_ifs <;> simp [h]

theorem foldl_quitVisit_apply {Stream : Type} (ops : StreamOps Stream)
    (hstop : ∀ x, ops.isPlaying (ops.stop x) = false) (l : List StreamPtr)
    (streams : StreamPtr → Stream) (p : StreamPtr) :
    l.foldl (quitVisit ops) streams p =
      if p ∈ l ∧ ops.isPlaying (streams p) = true then ops.stop (streams p) else streams p := by
  induction l generalizing streams with
  | nil => simp
  | cons a l ih =>
    rw [List.foldl_cons, ih]
    unfold quitVisit
    by_cases hpa : p = a
    · subst hpa
      cases hp : ops.isPlaying (streams p) <;> simp [hp, hstop]
    · cases ha : ops.isPlaying (streams a) <;> simp [ha, hpa, Function.update_noteq hpa]

/-- C1. When the audio subsystem initialises and the host opens a device,
`init` returns 0 exactly when the negotiated format is one of the eight
supported ones, it then installs the converter of that negotiated format (and
stores the negotiated spec), and for every other negotiated format it
returns -1. -/
theorem init_result_by_negotiated_format {Stream : Type} (ops : StreamOps Stream) (host : Host)
    (s : Session Stream) (freq : Int) (format : SDL_AudioFormat) (channels bufferSize : Int)
    (negotiated : SDL_AudioSpec)
    (hsub : host.SDL_InitSubSystem = 0)
    (hopen : host.SDL_OpenAudio (requestedSpec freq format channels bufferSize)
      (requestedSpec freq format channels bufferSize) = (0, negotiated)) :
    ((init ops host s freq format channels bufferSize).1 = 0 ↔
      negotiated.format ∈ [AUDIO_S8, AUDIO_U8, AUDIO_S16LSB, AUDIO_U16LSB, AUDIO_S16MSB,
        AUDIO_U16MSB, AUDIO_S32LSB, AUDIO_F32LSB]) ∧
    ((init ops host s freq format channels bufferSize).1 ≠ 0 →
      (init ops host s freq format channels bufferSize).1 = -1) ∧
    ((init ops host s freq format channels bufferSize).1 = 0 →
      (init ops host s freq format channels bufferSize).2.gInitialized = true ∧
      (init ops host s freq format channels bufferSize).2.fAudioSpec = negotiated) ∧
    (negotiated.format = AUDIO_S8 →
      (init ops host s freq format channels bufferSize).2.fSampleConverter =
        some SampleConverter.floatToS8) ∧
    (negotiated.format = AUDIO_U8 →
      (init ops host s freq format channels bufferSize).2.fSampleConverter =
        some SampleConverter.floatToU8) ∧
    (negotiated.format = AUDIO_S16LSB →
      (init ops host s freq format channels bufferSize).2.fSampleConverter =
        some SampleConverter.floatToS16LSB) ∧
    (negotiated.format = AUDIO_U16LSB →
      (init ops host s freq format channels bufferSize).2.fSampleConverter =
        some SampleConverter.floatToU16LSB) ∧
    (negotiated.format = AUDIO_S16MSB →
      (init ops host s freq format channels bufferSize).2.fSampleConverter =
        some SampleConverter.floatToS16MSB) ∧
    (negotiated.format = AUDIO_U16MSB →
      (init ops host s freq format channels bufferSize).2.fSampleConverter =
        some SampleConverter.floatToU16MSB) ∧
    (negotiated.format = AUDIO_S32LSB →
      (init ops host s freq format channels bufferSize).2.fSampleConverter =
        some SampleConverter.floatToS32LSB) ∧
    (negotiated.format = AUDIO_F32LSB →
      (init ops host s freq format channels bufferSize).2.fSampleConverter =
        some SampleConverter.floatToFloat) := by
  have hinit : init ops host s freq format channels bufferSize =
      match selectConverter negotiated.format with
      | some conv =>
        (0, { s with
              fAudioSpec := negotiated
              fSampleConverter := some conv
              calls := s.calls ++ [HostCall.initSubSystem] ++
                [HostCall.openAudio (requestedSpec freq format channels bufferSize)] ++
                [HostCall.pauseAudio false, HostCall.atexitQuit]
              gInitialized := true })
      | none =>
        (-1, quit ops { s with
                    fAudioSpec := negotiated
                    calls := s.calls ++ [HostCall.initSubSystem] ++
                      [HostCall.openAudio (requestedSpec freq format channels bufferSize)] }) := by
    simp [init, hsub, hopen]
  rw [hinit]
  have hsel := selectConverter_eq_some_iff negotiated.format
  refine ⟨?_, ?_, ?_, ?_, ?_, ?_, ?_, ?_, ?_, ?_, ?_⟩
  · rw [← hsel]
    cases selectConverter negotiated.format <;> simp
  · cases selectConverter negotiated.format <;> simp
  · cases selectConverter negotiated.format <;> simp
  all_goals
    intro hf
    simp [hf, selectConverter, AUDIO_S8, AUDIO_U8, AUDIO_S16LSB, AUDIO_U16LSB, AUDIO_S16MSB,
      AUDIO_U16MSB, AUDIO_S32LSB, AUDIO_F32LSB]

/-- Witness for C1: a host that negotiates big-endian signed 16-bit samples
although unsigned 8-bit samples were requested. -/
theorem init_result_by_negotiated_format_witness :
    (init audioStreamOps (hostNegotiating AUDIO_S16MSB) freshSession 44100 AUDIO_U8 2 4096).1 = 0 ∧
    (init audioStreamOps (hostNegotiating AUDIO_S16MSB) freshSession 44100 AUDIO_U8 2 4096).2.fSampleConverter =
      some SampleConverter.floatToS16MSB :=
  have h := init_result_by_negotiated_format audioStreamOps (hostNegotiating AUDIO_S16MSB)
    freshSession 44100 AUDIO_U8 2 4096 { requestedSpec 44100 AUDIO_U8 2 4096 with format := AUDIO_S16MSB } rfl rfl
  ⟨h.1.2 (by decide), h.2.2.2.2.2.2.2.1 rfl⟩

/-- C2. Let `stop()` make a stream not playing.  On an initialised session
`quit` then leaves no registered stream playing: a stream ends up as `stop()`
leaves it when it is registered and was playing, and exactly as it was
otherwise; the registry itself is unchanged. -/
theorem quit_stops_playing_streams {Stream : Type} (ops : StreamOps Stream)
    (s : Session Stream) (hinit : s.gInitialized = true)
    (hstop : ∀ x, ops.isPlaying (ops.stop x) = false) :
    (∀ p ∈ (quit ops s).fStreamList, ops.isPlaying ((quit ops s).streams p) = false) ∧
    (∀ p, (quit ops s).streams p =
      if p ∈ s.fStreamList ∧ ops.isPlaying (s.streams p) = true then ops.stop (s.streams p)
      else s.streams p) ∧
    (quit ops s).fStreamList = s.fStreamList := by
  have hq : (quit ops s).streams = s.fStreamList.foldl (quitVisit ops) s.streams := by
    simp [quit, hinit]
  have hl : (quit ops s).fStreamList = s.fStreamList := by
    simp [quit, hinit]
  refine ⟨?_, ?_, hl⟩
  · intro p hp
    rw [hl] at hp
    rw [hq, foldl_quitVisit_apply ops hstop]
    cases hplay : ops.isPlaying (s.streams p) <;> simp [hp, hplay, hstop]
  · intro p
    rw [hq, foldl_quitVisit_apply ops hstop]

/-- Witness for C2, with streams as the spec describes them: of three
registered streams the two playing ones are stopped and rewound, the stopped
one and an unregistered one are untouched. -/
theorem quit_stops_playing_streams_witness :
    exampleSession.gInitialized = true ∧
    (quit audioStreamOps exampleSession).streams 10 = { fIsPlaying := false, decoderPos := 0 } ∧
    (quit audioStreamOps exampleSession).streams 20 = { fIsPlaying := false, decoderPos := 5 } ∧
    (quit audioStreamOps exampleSession).streams 30 = { fIsPlaying := false, decoderPos := 0 } ∧
    (quit audioStreamOps exampleSession).streams 40 = { fIsPlaying := true, decoderPos := 3 } :=
  have h := (quit_stops_playing_streams audioStreamOps exampleSession rfl (fun _ => rfl)).2.1
  ⟨rfl, (h 10).trans (by decide), (h 20).trans (by decide), (h 30).trans (by decide),
    (h 40).trans (by decide)⟩

/-- C7. The channel count `init` requests from the host is
`min(max(1, channels), 2)`: 1 for every `channels <= 1`, 2 for every
`channels >= 2`, so always 1 or 2 and the argument itself when that is 1 or 2.
The host is asked with this clamped count, and `init` behaves for `channels`
exactly as for its clamped value, so a count out of range causes no failure
of its own. -/
theorem init_requests_clamped_channels {Stream : Type} (ops : StreamOps Stream) (host : Host)
    (s : Session Stream) (freq : Int) (format : SDL_AudioFormat) (channels bufferSize : Int) :
    ((requestedSpec freq format channels bufferSize).channels : Int) = min (max 1 channels) 2 ∧
    (channels ≤ 1 → (requestedSpec freq format channels bufferSize).channels = 1) ∧
    (2 ≤ channels → (requestedSpec freq format channels bufferSize).channels = 2) ∧
    ((requestedSpec freq format channels bufferSize).channels = 1 ∨
      (requestedSpec freq format channels bufferSize).channels = 2) ∧
    (channels = 1 ∨ channels = 2 →
      ((requestedSpec freq format channels bufferSize).channels : Int) = channels) ∧
    (host.SDL_InitSubSystem = 0 →
      HostCall.openAudio (requestedSpec freq format channels bufferSize) ∈
        (init ops host s freq format channels bufferSize).2.calls) ∧
    init ops host s freq format channels bufferSize =
      init ops host s freq format (min (max 1 channels) 2) bufferSize := by
  have hreq : requestedSpec freq format channels bufferSize =
      requestedSpec freq format (min (max 1 channels) 2) bufferSize := by
    unfold requestedSpec
    have : min (max 1 (min (max 1 channels) 2)) 2 = min (max 1 channels) 2 := by omega
    simp only [this]
  have hch : ((requestedSpec freq format channels bufferSize).channels : Int) =
      min (max 1 channels) 2 := by
    unfold requestedSpec
    simp only
    omega
  refine ⟨hch, ?_, ?_, ?_, ?_, ?_, ?_⟩
  · intro h; omega
  · intro h; omega
  · omega
  · intro h; omega
  · intro h
    unfold init
    simp only [h, ne_eq, not_true_eq_false, if_false]
    split_ifs
    · cases selectConverter _
      · exact mem_calls_quit _ _ _ (by simp)
      · simp
    · exact mem_calls_quit _ _ _ (by simp)
  · unfold init
    simp only [← hreq]

/-- C8. The function `quit` is idempotent: on a session that is not
initialised (never initialised, or torn down) it returns the state as it is,
every field and every stream included, whatever `stop()` would do; after
`quit` the session is not initialised, and a second `quit` right after the
first changes nothing. -/
theorem quit_idempotent {Stream : Type} (ops : StreamOps Stream) (s : Session Stream) :
    (s.gInitialized = false → quit ops s = s) ∧
    (quit ops s).gInitialized = false ∧
    quit ops (quit ops s) = quit ops s :=
  ⟨quit_of_not_initialized ops s, quit_gInitialized ops s,
    quit_of_not_initialized ops _ (quit_gInitialized ops s)⟩

/-! ## Properties of `AudioDecoderMusepack` -/

theorem doDecoding_of_eof {σ : Type} (codec : MpcCodec σ) (fuel : Nat)
    (self : AudioDecoderMusepack σ) (len : Nat) (heof : self.d.eof = true) :
    self.doDecoding codec fuel len = .returned 0 false [] self := by
  simp [AudioDecoderMusepack.doDecoding, heof]

theorem seekToTime_false_eof {σ : Type} (codec : MpcCodec σ) (self : AudioDecoderMusepack σ)
    (seconds : Seconds) (hfail : (self.seekToTime codec seconds).1 = false) :
    (self.seekToTime codec seconds).2.d.eof = self.d.eof ∧
    (self.seekToTime codec seconds).2.d.curFrame = self.d.curFrame ∧
    (self.seekToTime codec seconds).2.d.frameBufPos = self.d.frameBufPos := by
  unfold AudioDecoderMusepack.seekToTime at hfail ⊢
  cases hdm : self.d.demuxer with
  | none => simp
  | some dm =>
    simp only [hdm] at hfail ⊢
    split_ifs at hfail ⊢
    simp_all

/-- C3. At end of stream (`eof` set) a `doDecoding` call returns 0 with
`callAgain` false, stores nothing and leaves the decoder as it is, whatever
the codec, the buffer size `len` and the iteration bound.  In every sequence
of `doDecoding` and `seekToTime` calls started there in which no `seekToTime`
returns true, all calls are carried out and every `doDecoding` call behaves
this way. -/
theorem doDecoding_at_end_of_stream {σ : Type} (codec : MpcCodec σ) (fuel : Nat)
    (self : AudioDecoderMusepack σ) (calls : List DecoderCall) (heof : self.d.eof = true)
    (hfail : ∀ ok, CallResult.sought ok ∈ runCalls codec fuel self calls → ok = false) :
    (∀ (codec' : MpcCodec σ) (fuel' len : Nat),
      self.doDecoding codec' fuel' len = .returned 0 false [] self) ∧
    (runCalls codec fuel self calls).length = calls.length ∧
    ∀ before outcome, CallResult.decoded before outcome ∈ runCalls codec fuel self calls →
      outcome = .returned 0 false [] before ∧ before.d.eof = true ∧
      before.d.curFrame = self.d.curFrame ∧ before.d.frameBufPos = self.d.frameBufPos := by
  refine ⟨fun codec' fuel' len => doDecoding_of_eof codec' fuel' self len heof, ?_⟩
  induction calls generalizing self with
  | nil => simp [runCalls]
  | cons call rest ih =>
    cases call with
    | seekToTime seconds =>
      simp only [runCalls] at hfail ⊢
      have h1 : (self.seekToTime codec seconds).1 = false := hfail _ (List.mem_cons_self _ _)
      obtain ⟨h2, h3, h4⟩ := seekToTime_false_eof codec self seconds h1
      have := ih (self.seekToTime codec seconds).2 (by rw [h2, heof])
        (fun ok hok => hfail ok (List.mem_cons_of_mem _ hok))
      refine ⟨by simp [this.1], ?_⟩
      intro before outcome hmem
      simp only [List.mem_cons] at hmem
      rcases hmem with hmem | hmem
      · cases hmem
      · have := this.2 before outcome hmem
        rw [h3, h4] at this
        exact this
    | doDecoding len =>
      simp only [runCalls, doDecoding_of_eof codec fuel self len heof] at hfail ⊢
      have := ih self heof (fun ok hok => hfail ok (List.mem_cons_of_mem _ hok))
      refine ⟨by simp [this.1], ?_⟩
      intro before outcome hmem
      simp only [List.mem_cons] at hmem
      rcases hmem with hmem | hmem
      · cases hmem
        exact ⟨rfl, heof, rfl, rfl⟩
      · exact this.2 before outcome hmem

/-- Witness for C3: at the end of a one-frame stream, a decode call, a seek
the codec refuses, and two more decode calls. -/
theorem doDecoding_at_end_of_stream_witness :
    runCalls (tapeCodec 1) 8 endedDecoder
      [.doDecoding 4, .seekToTime 5, .doDecoding 0, .doDecoding 4096] =
      [.decoded endedDecoder (.returned 0 false [] endedDecoder), .sought false,
       .decoded endedDecoder (.returned 0 false [] endedDecoder),
       .decoded endedDecoder (.returned 0 false [] endedDecoder)] ∧
    (runCalls (tapeCodec 1) 8 endedDecoder
      [.doDecoding 4, .seekToTime 5, .doDecoding 0, .doDecoding 4096]).length = 4 :=
  have hrun : runCalls (tapeCodec 1) 8 endedDecoder
      [.doDecoding 4, .seekToTime 5, .doDecoding 0, .doDecoding 4096] =
      [.decoded endedDecoder (.returned 0 false [] endedDecoder), .sought false,
       .decoded endedDecoder (.returned 0 false [] endedDecoder),
       .decoded endedDecoder (.returned 0 false [] endedDecoder)] := by
    rfl
  ⟨hrun, (doDecoding_at_end_of_stream (tapeCodec 1) 8 endedDecoder
    [.doDecoding 4, .seekToTime 5, .doDecoding 0, .doDecoding 4096] rfl
    (by rw [hrun]; intro ok hok; simp at hok; exact hok)).2.1⟩

/-- C5. The method `seekToTime` returns true exactly when there is a
demuxer (the decoder has been opened) and the codec reports the seek as done.
When it returns true the end-of-stream flag is cleared.  When it returns
false the end-of-stream flag, the buffered frame and the position in the
frame are as before, so a decoder at end of stream stays there; without a
demuxer nothing at all changes. -/
theorem seekToTime_result {σ : Type} (codec : MpcCodec σ) (self : AudioDecoderMusepack σ)
    (seconds : Seconds) :
    ((self.seekToTime codec seconds).1 = true ↔
      ∃ dm, self.d.demuxer = some dm ∧
        (codec.mpc_demux_seek_second dm seconds).1 = MPC_STATUS_OK) ∧
    ((self.seekToTime codec seconds).1 = true →
      (self.seekToTime codec seconds).2.d.eof = false) ∧
    ((self.seekToTime codec seconds).1 = false →
      (self.seekToTime codec seconds).2.d.eof = self.d.eof ∧
      (self.seekToTime codec seconds).2.d.curFrame = self.d.curFrame ∧
      (self.seekToTime codec seconds).2.d.frameBufPos = self.d.frameBufPos) ∧
    ((self.seekToTime codec seconds).1 = false → self.d.eof = true →
      (self.seekToTime codec seconds).2.d.eof = true) ∧
    (self.d.demuxer = none → self.seekToTime codec seconds = (false, self)) ∧
    (self.seekToTime codec seconds).2.fIsOpen = self.fIsOpen := by
  refine ⟨?_, ?_, seekToTime_false_eof codec self seconds, ?_, ?_, ?_⟩
  · unfold AudioDecoderMusepack.seekToTime
    cases hdm : self.d.demuxer with
    | none => simp
    | some dm =>
      simp only [Option.some.injEq, exists_eq_left']
      split_ifs with h <;> simp [h]
  · unfold AudioDecoderMusepack.seekToTime
    cases hdm : self.d.demuxer with
    | none => simp
    | some dm =>
      simp only
      split_ifs with h <;> simp
  · intro hfail heof
    rw [(seekToTime_false_eof codec self seconds hfail).1, heof]
  · intro hdm
    simp [AudioDecoderMusepack.seekToTime, hdm]
  · unfold AudioDecoderMusepack.seekToTime
    cases hdm : self.d.demuxer with
    | none => simp
    | some dm =>
      simp only
      split_ifs <;> rfl

/-- C6. On a decoder that is already open, `open` returns true and leaves
the decoder as it is (byte source, demuxer, stream info, buffered frame,
end-of-stream flag), for every byte source and every codec: the answer of
the codec's demuxer initialisation plays no part. -/
theorem open_of_open {σ : Type} (codec : MpcCodec σ) (self : AudioDecoderMusepack σ)
    (rwops : SDL_RWops) (hopen : self.fIsOpen = true) :
    self.open' codec rwops = (true, self) := by
  simp [AudioDecoderMusepack.open', hopen]

/-- Witness for C6: an open decoder is handed a source the codec rejects. -/
theorem open_of_open_witness :
    (tapeCodec 2).mpc_demux_init [0, 1, 2] = none ∧
    midFrameDecoder.open' (tapeCodec 2) [0, 1, 2] = (true, midFrameDecoder) :=
  ⟨rfl, open_of_open (tapeCodec 2) midFrameDecoder [0, 1, 2] rfl⟩

/-- C9, evaluated on the code.  After a `doDecoding` call for four samples
on a two-frame stream the decoder (`midFrameDecoder`) holds the samples `7, 8`
of the second frame.  `rewind()` returns true and the stream then starts over
with the frame `1, 2`, yet the next `doDecoding` call for four samples
delivers `7, 8` first.  The same happens after `seekToTime(1)`. -/
theorem doDecoding_after_rewind_emits_buffered_frame :
    twoFrameDecoder.doDecoding (tapeCodec 2) 4 4 =
      .returned 4 false [1, 2, 5, 6] midFrameDecoder ∧
    (midFrameDecoder.rewind (tapeCodec 2)).1 = true ∧
    (midFrameDecoder.rewind (tapeCodec 2)).2.d.curFrame.samples = 1 ∧
    ((midFrameDecoder.rewind (tapeCodec 2)).2.doDecoding (tapeCodec 2) 4 4).written =
      [7, 8, 1, 2] ∧
    (∃ self, (midFrameDecoder.rewind (tapeCodec 2)).2.doDecoding (tapeCodec 2) 4 4 =
      .returned 4 false [7, 8, 1, 2] self) ∧
    (midFrameDecoder.seekToTime (tapeCodec 2) 1).1 = true ∧
    ((midFrameDecoder.seekToTime (tapeCodec 2) 1).2.doDecoding (tapeCodec 2) 4 4).written =
      [7, 8, 5, 6] := by
  refine ⟨rfl, rfl, rfl, rfl, ⟨_, rfl⟩, rfl, rfl⟩

theorem floatsAt_length (buffer : Nat → Sample) (pos n : Nat) :
    (floatsAt buffer pos n).length = n := by
  simp [floatsAt]

theorem readFloats_eq_some {buffer : Nat → Sample} {pos n : Nat}
    (h : pos + n ≤ MPC_DECODER_BUFFER_LENGTH) :
    readFloats buffer pos n = some (floatsAt buffer pos n) := by
  simp [readFloats, h]

theorem length_of_readFloats {buffer : Nat → Sample} {pos n : Nat} {floats : List Sample}
    (h : readFloats buffer pos n = some floats) : floats.length = n := by
  unfold readFloats at h
  split_ifs at h
  cases h
  exact floatsAt_length _ _ _

theorem toUnsigned_le (n : Nat) : toUnsigned n ≤ n :=
  Nat.mod_le n _

theorem copyLen_le (m len : Nat) : toUnsigned (min (toSizeT m) len) ≤ len :=
  (toUnsigned_le _).trans (min_le_right _ _)

theorem copyLen_le_of_fit (m len : Nat) (hm : m ≤ MPC_DECODER_BUFFER_LENGTH) :
    toUnsigned (min (toSizeT m) len) ≤ m := by
  unfold toUnsigned toSizeT
  unfold MPC_DECODER_BUFFER_LENGTH at hm
  omega

theorem decodeLoop_within_buffer {σ : Type} (codec : MpcCodec σ) (fuel : Nat) :
    ∀ (self : AudioDecoderMusepack σ) (len totalSamples wantedSamples : Nat)
      (out : List Sample), totalSamples ≤ out.length →
      (decodeLoop codec fuel self len totalSamples wantedSamples out).written.length ≤
        out.length + len ∧
      ∀ ret callAgain written self',
        decodeLoop codec fuel self len totalSamples wantedSamples out =
          .returned ret callAgain written self' → ret ≤ written.length ∧ callAgain = false := by
  induction fuel with
  | zero =>
    intro self len totalSamples wantedSamples out htotal
    unfold decodeLoop
    split_ifs
    · simp [DecodeOutcome.written]
    · refine ⟨by simp [DecodeOutcome.written], ?_⟩
      intro ret callAgain written self' h
      cases h
      exact ⟨htotal, rfl⟩
  | succ fuel ih =>
    intro self len totalSamples wantedSamples out htotal
    unfold decodeLoop
    split_ifs with hlt
    · cases hdm : self.d.demuxer with
      | none => simp [DecodeOutcome.written]
      | some dm =>
        simp only
        have hcopy := copyLen_le
          ((codec.mpc_demux_decode dm self.d.curFrame).2.1.samples * self.d.strmInfo.channels) len
        cases hread : readFloats (codec.mpc_demux_decode dm self.d.curFrame).2.1.buffer 0
            (toUnsigned (min (toSizeT ((codec.mpc_demux_decode dm self.d.curFrame).2.1.samples *
              self.d.strmInfo.channels)) len)) with
        | none =>
          simp only
          split_ifs with hst
          · refine ⟨by simp [DecodeOutcome.written], ?_⟩
            intro ret callAgain written self' h
            cases h
            exact ⟨Nat.zero_le _, rfl⟩
          · exact ⟨by simp [DecodeOutcome.written], by intro _ _ _ _ h; cases h⟩
        | some floats =>
          have hfl := length_of_readFloats hread
          have hu := toUnsigned_le (totalSamples +
            toUnsigned (min (toSizeT ((codec.mpc_demux_decode dm self.d.curFrame).2.1.samples *
              self.d.strmInfo.channels)) len))
          simp only
          split_ifs with hst hch hbits
          · refine ⟨by simp [DecodeOutcome.written], ?_⟩
            intro ret callAgain written self' h
            cases h
            exact ⟨Nat.zero_le _, rfl⟩
          · refine ⟨?_, by intro _ _ _ _ h; cases h⟩
            simp only [DecodeOutcome.written, List.length_append]
            omega
          · refine ⟨?_, ?_⟩
            · simp only [DecodeOutcome.written, List.length_append]
              omega
            · intro ret callAgain written self' h
              cases h
              refine ⟨?_, rfl⟩
              simp only [List.length_append]
              omega
          · have hnew : toUnsigned (totalSamples +
                toUnsigned (min (toSizeT
                  ((codec.mpc_demux_decode dm self.d.curFrame).2.1.samples *
                    self.d.strmInfo.channels)) len)) ≤ (out ++ floats).length := by
              simp only [List.length_append]
              omega
            refine ⟨?_, (ih _ _ _ _ _ hnew).2⟩
            refine le_trans (ih _ _ _ _ _ hnew).1 ?_
            simp only [List.length_append]
            omega
    · refine ⟨by simp [DecodeOutcome.written], ?_⟩
      intro ret callAgain written self' h
      cases h
      exact ⟨htotal, rfl⟩

theorem decodeLoop_returns {σ : Type} (codec : MpcCodec σ) (fuel : Nat) :
    ∀ (self : AudioDecoderMusepack σ) (len totalSamples wantedSamples : Nat)
      (out : List Sample) (dm : σ), self.d.demuxer = some dm →
      self.d.strmInfo.channels ≠ 0 →
      StreamEndsWithin codec self.d.strmInfo.channels fuel dm →
      ∃ ret written self',
        decodeLoop codec fuel self len totalSamples wantedSamples out =
          .returned ret false written self' := by
  induction fuel with
  | zero =>
    intro self len totalSamples wantedSamples out dm _ _ hend
    exact absurd hend (by simp [StreamEndsWithin])
  | succ fuel ih =>
    intro self len totalSamples wantedSamples out dm hdm hch hend
    unfold decodeLoop
    split_ifs with hlt
    · simp only [hdm]
      rcases hend self.d.curFrame with h | ⟨hfit, h⟩
      · simp only [h, ne_eq, not_false_eq_true, if_true]
        exact ⟨_, _, _, rfl⟩
      · have hle : 0 + toUnsigned (min (toSizeT
            ((codec.mpc_demux_decode dm self.d.curFrame).2.1.samples *
              self.d.strmInfo.channels)) len) ≤ MPC_DECODER_BUFFER_LENGTH := by
          rw [Nat.zero_add]
          exact (copyLen_le_of_fit _ len hfit).trans hfit
        rw [readFloats_eq_some hle]
        simp only [hch, if_false]
        split_ifs with hst hbits
        · exact ⟨_, _, _, rfl⟩
        · exact ⟨_, _, _, rfl⟩
        · rcases h with h | h
          · exact absurd h hbits
          · exact ih _ _ _ _ _ _ rfl hch h
    · exact ⟨_, _, _, rfl⟩

/-- C4. A `doDecoding` call never stores more than `len` floats into `buf`,
however it ends (return, decode error, undefined behaviour, or a loop that is
still running after any number of iterations), and a value it returns is at
most `len` and at most the number of floats stored; `callAgain` is false.
This holds for every decoder state, every `len` and every codec.  The call
does return when the decoder is open with a nonzero channel count, what is
left of its current frame lies inside the frame buffer, and the codec
reaches an error or the end of the stream within `fuel` frames, each of them
fitting the frame buffer. -/
theorem doDecoding_within_buffer {σ : Type} (codec : MpcCodec σ) (fuel : Nat)
    (self : AudioDecoderMusepack σ) (len : Nat) :
    (self.doDecoding codec fuel len).written.length ≤ len ∧
    (∀ ret callAgain written self',
      self.doDecoding codec fuel len = .returned ret callAgain written self' →
        ret ≤ len ∧ ret ≤ written.length ∧ written.length ≤ len ∧ callAgain = false) ∧
    (∀ dm, self.d.demuxer = some dm → self.d.strmInfo.channels ≠ 0 →
      self.d.frameBufPos + self.d.curFrame.samples * self.d.strmInfo.channels ≤
        MPC_DECODER_BUFFER_LENGTH →
      StreamEndsWithin codec self.d.strmInfo.channels fuel dm →
      ∃ ret written self', self.doDecoding codec fuel len = .returned ret false written self') := by
  have key : (self.doDecoding codec fuel len).written.length ≤ len ∧
      ∀ ret callAgain written self',
        self.doDecoding codec fuel len = .returned ret callAgain written self' →
          ret ≤ written.length ∧ callAgain = false := by
    unfold AudioDecoderMusepack.doDecoding
    simp only
    have hcopy := copyLen_le (self.d.curFrame.samples * self.d.strmInfo.channels) len
    cases hread : readFloats self.d.curFrame.buffer self.d.frameBufPos
        (toUnsigned (min (toSizeT (self.d.curFrame.samples * self.d.strmInfo.channels))
          len)) with
    | none =>
      simp only
      split_ifs with heof hs
      · refine ⟨by simp [DecodeOutcome.written], ?_⟩
        intro ret callAgain written self' h
        cases h
        exact ⟨Nat.le_refl _, rfl⟩
      · exact ⟨by simp [DecodeOutcome.written], by intro _ _ _ _ h; cases h⟩
      · have := decodeLoop_within_buffer codec fuel self len 0 (toUnsigned len) []
          (Nat.zero_le _)
        simpa using this
    | some floats =>
      have hfl := length_of_readFloats hread
      simp only
      split_ifs with heof hs hch hrest
      · refine ⟨by simp [DecodeOutcome.written], ?_⟩
        intro ret callAgain written self' h
        cases h
        exact ⟨Nat.le_refl _, rfl⟩
      · refine ⟨?_, by intro _ _ _ _ h; cases h⟩
        simp only [DecodeOutcome.written]
        omega
      · refine ⟨?_, ?_⟩
        · simp only [DecodeOutcome.written]
          omega
        · intro ret callAgain written self' h
          cases h
          exact ⟨by omega, rfl⟩
      · refine ⟨?_, ?_⟩
        · refine le_trans (decodeLoop_within_buffer codec fuel _ _ _ _ _ ?_).1 ?_
          · rw [hfl]
            exact toUnsigned_le _
          · omega
        · exact (decodeLoop_within_buffer codec fuel _ _ _ _ _
            (by rw [hfl]; exact toUnsigned_le _)).2
      · have := decodeLoop_within_buffer codec fuel self len 0 (toUnsigned len) []
          (Nat.zero_le _)
        simpa using this
  refine ⟨key.1, ?_, ?_⟩
  · intro ret callAgain written self' h
    have h1 := key.1
    have h2 := key.2 ret callAgain written self' h
    rw [h] at h1
    simp only [DecodeOutcome.written] at h1
    exact ⟨h2.1.trans h1, h2.1, h1, h2.2⟩
  · intro dm hdm hch hfit hend
    have hle : self.d.frameBufPos + toUnsigned (min (toSizeT
        (self.d.curFrame.samples * self.d.strmInfo.channels)) len) ≤
        MPC_DECODER_BUFFER_LENGTH := by
      have := copyLen_le_of_fit (self.d.curFrame.samples * self.d.strmInfo.channels) len
        (by omega)
      omega
    unfold AudioDecoderMusepack.doDecoding
    simp only
    rw [readFloats_eq_some hle]
    simp only [hch, if_false]
    split_ifs with heof hs hrest
    · exact ⟨_, _, _, rfl⟩
    · exact ⟨_, _, _, rfl⟩
    · exact decodeLoop_returns codec fuel _ _ _ _ _ dm hdm hch hend
    · exact decodeLoop_returns codec fuel _ _ _ _ _ dm hdm hch hend

/-- A frame that does not fit the frame buffer leads outside the defined
behaviour of the source.  With a frame of 4609 mono samples a call for 4609
samples reads 4609 floats from the 4608-float buffer; a call for one sample
returns it, and the call for the other 4608 then reads up to offset 4608. -/
theorem doDecoding_oversize_frame_undefined :
    oversizeDecoder.doDecoding (tapeCodec 1) 2 4609 = .undefined [] ∧
    decodeCalls (tapeCodec 1) 2 oversizeDecoder [1, 4608] =
      [.returned 1 false [0]
        { oversizeDecoder with
          d := { oversizeDecoder.d with
                 demuxer := some
                   { tape := [{ samples := 4609, bits := 8, floats := [] }], next := 1 }
                 curFrame := { samples := 4608, bits := 8,
                               buffer := writeFloats [] fun _ => 0 }
                 frameBufPos := 1 } },
       .undefined []] :=
  ⟨rfl, rfl⟩

/-- Example for C4.  Two buffered floats are stored, then the codec reports
an error on a stream that breaks off: the call returns 0 and has stored 2
floats into a buffer of 4.  With a codec that ends the stream the call
returns.  At a read position at the end of the frame buffer, with a stereo
sample still counted, the call reads outside the frame buffer: it has stored
nothing into `buf` when it reaches undefined behaviour. -/
theorem doDecoding_within_buffer_witness :
    (∃ self', midFrameDecoder.doDecoding (truncatedTapeCodec 2) 1 4 =
      .returned 0 false [7, 8] self') ∧
    (midFrameDecoder.doDecoding (truncatedTapeCodec 2) 1 4).written.length ≤ 4 ∧
    (∃ ret written self', midFrameDecoder.doDecoding (tapeCodec 2) 1 4 =
      .returned ret false written self') ∧
    overrunDecoder.doDecoding (tapeCodec 2) 1 1 = .undefined [] ∧
    (overrunDecoder.doDecoding (tapeCodec 2) 1 1).written.length ≤ 1 :=
  ⟨⟨_, rfl⟩, (doDecoding_within_buffer (truncatedTapeCodec 2) 1 midFrameDecoder 4).1,
    (doDecoding_within_buffer (tapeCodec 2) 1 midFrameDecoder 4).2.2 _ rfl (by decide)
      (by decide) (fun _ => Or.inr ⟨(show 0 * 2 ≤ MPC_DECODER_BUFFER_LENGTH from by decide), Or.inl rfl⟩),
    rfl, (doDecoding_within_buffer (tapeCodec 2) 1 overrunDecoder 1).1⟩


/-- Example for C5: at the end of a one-frame stream a seek to second 5 is
refused and the decoder stays at end of stream; a seek to second 0 succeeds
and clears the flag. -/
theorem seekToTime_result_witness :
    (endedDecoder.seekToTime (tapeCodec 1) 5).1 = false ∧
    (endedDecoder.seekToTime (tapeCodec 1) 5).2.d.eof = true ∧
    (endedDecoder.seekToTime (tapeCodec 1) 0).1 = true ∧
    (endedDecoder.seekToTime (tapeCodec 1) 0).2.d.eof = false :=
  ⟨rfl, (seekToTime_result (tapeCodec 1) endedDecoder 5).2.2.2.1 rfl rfl, rfl,
    (seekToTime_result (tapeCodec 1) endedDecoder 0).2.1 rfl⟩

/-- Example for C7: six channels are requested as two, minus three as one,
and `init` succeeds with six. -/
theorem init_requests_clamped_channels_witness :
    (requestedSpec 44100 AUDIO_S16LSB 6 4096).channels = 2 ∧
    (requestedSpec 44100 AUDIO_S16LSB (-3) 4096).channels = 1 ∧
    (init audioStreamOps (hostNegotiating AUDIO_S16LSB) freshSession 44100 AUDIO_S16LSB 6
      4096).1 = 0 :=
  ⟨(init_requests_clamped_channels audioStreamOps (hostNegotiating AUDIO_S16LSB) freshSession
      44100 AUDIO_S16LSB 6 4096).2.2.1 (by decide),
    (init_requests_clamped_channels audioStreamOps (hostNegotiating AUDIO_S16LSB) freshSession
      44100 AUDIO_S16LSB (-3) 4096).2.1 (by decide), rfl⟩

/-- Example for C8: `quit` before any `init` changes nothing, and a second
`quit` on a session that was initialised changes nothing more. -/
theorem quit_idempotent_witness :
    quit audioStreamOps freshSession = freshSession ∧
    (quit audioStreamOps exampleSession).gInitialized = false ∧
    quit audioStreamOps (quit audioStreamOps exampleSession) =
      quit audioStreamOps exampleSession :=
  ⟨(quit_idempotent audioStreamOps freshSession).1 rfl,
    (quit_idempotent audioStreamOps exampleSession).2.1,
    (quit_idempotent audioStreamOps exampleSession).2.2⟩

end Aulib
